import Mathlib

/-!
Verification development for the awstee stream-duplication core.

The definitions below are shallow embeddings of the Go functions in the
repository (file awstee.go, plus config.go): pure data and explicit
state passing replace goroutines and channels, and every fallible call is
modelled by an explicit result value supplied by the environment.
Byte streams are lists of Nat, log messages are strings, and the AWS
clients are modelled as functions from the call site to the result the
remote service returns there.
-/

namespace Awstee

/-! ## Duplicating reader (AWSTeeReader)

newAWSTeeReader wraps the source reader with io.TeeReader over an
io.MultiWriter of all destination writers, so every chunk read from the
source is appended, synchronously and in order, to every destination
before the bytes are handed to the caller.  Destination write-closers are
abstracted, exactly as the repository test harness does, as a captured
byte buffer plus a counter of Close invocations. -/

/-- Abstract destination write-closer: the bytes it has received and how
many times its Close has been invoked (mirrors the testWriteCloser used by
the repository test suite). -/
structure WCState where
  buf : List Nat
  closeCount : Nat
  deriving Repr, DecidableEq

/-- State of an AWSTeeReader: the destination write-closers, the unread
suffix of the source, the bytes already returned to the caller, and the
isClosed flag set by Close. -/
structure AWSTeeReaderM where
  writeClosers : List WCState
  source : List Nat
  consumed : List Nat
  isClosed : Bool
  deriving Repr, DecidableEq

/-- Read errors visible to the caller: io.EOF is the only one the claims
are about. -/
inductive ReadErr where
  | eof
  deriving Repr, DecidableEq

/-- AWSTeeReader.Read: if isClosed, return (0, io.EOF) without touching
the source; otherwise delegate to the io.TeeReader, which takes a chunk of
at most n bytes from the source, appends it to every destination writer
(io.MultiWriter), records it as consumed, and returns it to the caller.
An exhausted source yields (0, io.EOF), as strings.Reader does. -/
def teeReaderRead (st : AWSTeeReaderM) (n : Nat) :
    (List Nat × Option ReadErr) × AWSTeeReaderM :=
  if st.isClosed then (([], some ReadErr.eof), st)
  else if st.source = [] then (([], some ReadErr.eof), st)
  else
    let chunk := st.source.take n
    (⟨chunk, none⟩,
      { st with
        source := st.source.drop n
        consumed := st.consumed ++ chunk
        writeClosers := st.writeClosers.map fun w => { w with buf := w.buf ++ chunk } })

/-- Run a whole schedule of Read calls (the chunk sizes io.ReadAll happens
to use), threading the reader state. -/
def teeReaderRun (sched : List Nat) (st : AWSTeeReaderM) : AWSTeeReaderM :=
  sched.foldl (fun s n => (teeReaderRead s n).2) st

/-- AWSTeeReader.Close: invokes Close on every destination write-closer
(concurrently via errgroup in the source; each writer is closed exactly
once per Close call, with no guard against an earlier Close), then sets
isClosed. -/
def teeReaderClose (st : AWSTeeReaderM) : AWSTeeReaderM :=
  { st with
    writeClosers := st.writeClosers.map fun w => { w with closeCount := w.closeCount + 1 }
    isClosed := true }

/-- Initial reader over source S with numW destinations, as built by
newAWSTeeReader: all destination buffers empty, nothing consumed, open. -/
def teeInit (S : List Nat) (numW : Nat) : AWSTeeReaderM :=
  { writeClosers := List.replicate numW ⟨[], 0⟩
    source := S
    consumed := []
    isClosed := false }

/-- Invariant tying a reader state to the original source S: the consumed
prefix plus the unread suffix is S, and every destination has received
exactly the consumed prefix. -/
def teeInv (S : List Nat) (st : AWSTeeReaderM) : Prop :=
  st.consumed ++ st.source = S ∧ ∀ w ∈ st.writeClosers, w.buf = st.consumed

theorem teeInv_init (S : List Nat) (numW : Nat) : teeInv S (teeInit S numW) := by
  constructor
  · simp [teeInit]
  · intro w hw
    simp [teeInit] at hw
    rcases hw with ⟨-, rfl⟩
    rfl

theorem teeReaderRead_state (st : AWSTeeReaderM) (n : Nat) :
    (teeReaderRead st n).2 =
      if st.isClosed then st
      else if st.source = [] then st
      else { st with
        source := st.source.drop n
        consumed := st.consumed ++ st.source.take n
        writeClosers :=
          st.writeClosers.map fun w => { w with buf := w.buf ++ st.source.take n } } := by
  unfold teeReaderRead
  split
  · rfl
  · split
    · rfl
    · rfl

theorem teeInv_read (S : List Nat) (st : AWSTeeReaderM) (n : Nat)
    (h : teeInv S st) : teeInv S (teeReaderRead st n).2 := by
  obtain ⟨h1, h2⟩ := h
  rw [teeReaderRead_state]
  split
  · exact ⟨h1, h2⟩
  split
  · exact ⟨h1, h2⟩
  refine ⟨?_, ?_⟩
  · simp only [List.append_assoc, List.take_append_drop]
    exact h1
  · intro w hw
    simp only [List.mem_map] at hw
    rcases hw with ⟨w0, hw0, rfl⟩
    simp [h2 w0 hw0]

theorem teeInv_run (S : List Nat) (sched : List Nat) (st : AWSTeeReaderM)
    (h : teeInv S st) : teeInv S (teeReaderRun sched st) := by
  induction sched generalizing st with
  | nil => simpa [teeReaderRun] using h
  | cons n rest ih =>
      have := teeInv_read S st n h
      simpa [teeReaderRun] using ih _ this

/-- Claim C1: for every input byte sequence S and every set of configured
destination writers, reading the duplicating reader to completion returns
exactly S to the caller, and after Close each destination writer has
received exactly the bytes of S, byte for byte, in source order. -/
theorem C1_fanout_fidelity (S : List Nat) (numW : Nat) (sched : List Nat)
    (hdone : (teeReaderRun sched (teeInit S numW)).source = []) :
    (teeReaderClose (teeReaderRun sched (teeInit S numW))).consumed = S ∧
    ∀ w ∈ (teeReaderClose (teeReaderRun sched (teeInit S numW))).writeClosers,
      w.buf = S := by
  have hinv := teeInv_run S sched (teeInit S numW) (teeInv_init S numW)
  obtain ⟨h1, h2⟩ := hinv
  have hcons : (teeReaderRun sched (teeInit S numW)).consumed = S := by
    rw [hdone, List.append_nil] at h1
    exact h1
  refine ⟨hcons, ?_⟩
  intro w hw
  simp only [teeReaderClose, List.mem_map] at hw
  rcases hw with ⟨w0, hw0, rfl⟩
  show w0.buf = S
  rw [h2 w0 hw0]
  exact hcons

theorem C1_fanout_fidelity_witness :
    (teeReaderRun [2, 5] (teeInit [1, 2, 3] 2)).source = [] ∧
    (teeReaderClose (teeReaderRun [2, 5] (teeInit [1, 2, 3] 2))).consumed
      = [1, 2, 3] ∧
    ∀ w ∈ (teeReaderClose (teeReaderRun [2, 5] (teeInit [1, 2, 3] 2))).writeClosers,
      w.buf = [1, 2, 3] := by
  refine ⟨by decide, ?_⟩
  exact C1_fanout_fidelity [1, 2, 3] 2 [2, 5] (by decide)

/-- Claim C7: after Close has been called on the duplicating reader, every
subsequent Read call returns (0, end-of-stream): never an error other than
EOF, never bytes from the source, even if the source has unread data. -/
theorem C7_read_after_close (st : AWSTeeReaderM) (n : Nat)
    (h : st.isClosed = true) :
    teeReaderRead st n = (([], some ReadErr.eof), st) := by
  simp [teeReaderRead, h]

theorem C7_read_after_close_witness :
    teeReaderRead ⟨[⟨[], 0⟩], [7, 8, 9], [], true⟩ 4
      = (([], some ReadErr.eof), ⟨[⟨[], 0⟩], [7, 8, 9], [], true⟩) :=
  C7_read_after_close ⟨[⟨[], 0⟩], [7, 8, 9], [], true⟩ 4 rfl

/-- Claim C8 counterexample: AWSTeeReader.Close has no guard on isClosed,
so closing the already-closed reader invokes every destination writer
Close again: after two Close calls the single writer has closeCount 2,
refuting that each writer close sequence runs at most once per reader
lifetime. -/
theorem C8_counterexample :
    ((teeReaderClose (teeReaderClose (teeInit [1] 1))).writeClosers.all
      fun w => w.closeCount ≤ 1) = false := by decide

/-- Claim C8 (amended): calling Close on an already-closed reader does not
panic, but it re-invokes every destination writer Close: each Close call
on the reader runs every writer close sequence exactly once more,
regardless of whether the reader was already closed. -/
theorem C8_close_reinvokes (st : AWSTeeReaderM) :
    (teeReaderClose st).isClosed = true ∧
    (teeReaderClose st).writeClosers.map WCState.closeCount
      = st.writeClosers.map fun w => w.closeCount + 1 := by
  refine ⟨rfl, ?_⟩
  simp [teeReaderClose]

/-! ## Batching log writer worker (newCloudWatchLogsWriter)

The worker of the CloudWatch Logs writer is a select loop over three
events: a scanned line arriving on the internal queue, the flush-interval
ticker firing, and cooperative cancellation.  We model one loop iteration
as a step function on an explicit worker state, driven by a trace of
events, and the remote PutLogEvents client as a function from the index of
the call (how many calls were made before it) to the result the service
returns.  Timestamps are abstracted away; an event is its message text. -/

/-- One recorded PutLogEvents call: the sequence token presented and the
batch of event messages submitted, in order. -/
structure PutCall where
  seqToken : Option String
  events : List String
  deriving Repr, DecidableEq

/-- Result of a PutLogEvents call: success with the NextSequenceToken of
the response, or an error (in which case the Go SDK returns a nil response
pointer). -/
inductive PutResult where
  | ok (next : Option String)
  | err
  deriving Repr, DecidableEq

/-- State of the batching/flush task: the in-memory batch of messages, the
current sequence token, the log of PutLogEvents calls made so far, the
number of errors sent to the error channel, whether the goroutine has
panicked (crashed), and the isDone flag set on cancellation. -/
structure CWWorkerState where
  events : List String
  seqToken : Option String
  calls : List PutCall
  errs : Nat
  crashed : Bool
  done : Bool
  deriving Repr, DecidableEq

/-- Events the select loop can observe: a line received from the
line-splitting task (channel receive with ok = true), the line channel
reporting closed (ok = false), the flush ticker firing, and cancellation
of the context. -/
inductive CWEvent where
  | line (msg : String)
  | lineClosed
  | tick
  | cancel
  deriving Repr, DecidableEq

/-- The in-loop flush (identical bodies at the size trigger and the timer
trigger): call PutLogEvents with the current batch and token; on error the
code sends the error to the channel and then reads NextSequenceToken from
the nil response pointer, so the goroutine panics — modelled as crashed,
with the state frozen at the point of the panic.  On success the token is
replaced by the NextSequenceToken of the response and the batch slice is
reset to empty. -/
def putLogEventsLoop (client : Nat → PutResult) (st : CWWorkerState) :
    CWWorkerState :=
  let call : PutCall := ⟨st.seqToken, st.events⟩
  match client st.calls.length with
  | PutResult.ok next =>
      { st with calls := st.calls ++ [call], seqToken := next, events := [] }
  | PutResult.err =>
      { st with calls := st.calls ++ [call], errs := st.errs + 1, crashed := true }

/-- One iteration of the select loop.  A received line is appended to the
batch and a flush is triggered when the batch has reached BufferLines (K);
a closed line channel still runs the size check with the batch unchanged;
a tick flushes a non-empty batch; cancellation sets isDone.  A crashed
worker makes no further steps (the panic killed the goroutine), and after
isDone the loop has exited. -/
def cwStep (K : Nat) (client : Nat → PutResult) (st : CWWorkerState)
    (ev : CWEvent) : CWWorkerState :=
  if st.crashed ∨ st.done then st
  else
    match ev with
    | CWEvent.line msg =>
        let st1 := { st with events := st.events ++ [msg] }
        if K ≤ st1.events.length then putLogEventsLoop client st1 else st1
    | CWEvent.lineClosed =>
        if K ≤ st.events.length then putLogEventsLoop client st else st
    | CWEvent.tick =>
        if 0 < st.events.length then putLogEventsLoop client st else st
    | CWEvent.cancel => { st with done := true }

/-- Run the select loop over a trace of events. -/
def cwRun (K : Nat) (client : Nat → PutResult) (tr : List CWEvent)
    (st : CWWorkerState) : CWWorkerState :=
  tr.foldl (cwStep K client) st

/-- The drain performed after the loop exits (lines 366-382 of the
source): wait for the line-splitting task, append every line still queued
in the channel (pending) to the batch, and if the batch is non-empty issue
one final PutLogEvents call.  This final call discards the response
output, so the token is not updated and an error is only sent to the
channel (no nil dereference here).  A crashed worker never reaches the
drain. -/
def cwDrain (client : Nat → PutResult) (st : CWWorkerState)
    (pending : List String) : CWWorkerState :=
  if st.crashed then st
  else
    let st1 := { st with events := st.events ++ pending }
    if 0 < st1.events.length then
      let call : PutCall := ⟨st1.seqToken, st1.events⟩
      match client st1.calls.length with
      | PutResult.ok _ => { st1 with calls := st1.calls ++ [call] }
      | PutResult.err =>
          { st1 with calls := st1.calls ++ [call], errs := st1.errs + 1 }
    else st1

/-- A full worker run: the select loop over the trace, then the close
drain with the lines still pending in the channel. -/
def cwRunClose (K : Nat) (client : Nat → PutResult) (tr : List CWEvent)
    (pending : List String) (st : CWWorkerState) : CWWorkerState :=
  cwDrain client (cwRun K client tr st) pending

/-- Initial worker state: empty batch, the sequence token recovered by
prepareCloudwatchLogs, no calls, no errors, alive, loop running. -/
def cwInit (tok : Option String) : CWWorkerState :=
  ⟨[], tok, [], 0, false, false⟩

/-- Newline splitting of a character stream, accumulating the current
record in reverse (the splitting loop of bufio.Scanner with ScanLines). -/
def splitLinesAux : List Char → List Char → List (List Char)
  | [], acc => [acc.reverse]
  | c :: rest, acc =>
      if c = '\n' then acc.reverse :: splitLinesAux rest []
      else splitLinesAux rest (c :: acc)

/-- ScanLines strips one trailing carriage return from each record. -/
def dropCR (l : List Char) : List Char :=
  match l.getLast? with
  | some c => if c = '\r' then l.dropLast else l
  | none => l

/-- The non-empty scanned texts the line-splitting task pushes onto the
internal queue for a given piped input (bufio.Scanner over the pipe,
keeping only texts different from the empty string). -/
def scanTexts (input : String) : List String :=
  (((splitLinesAux input.toList []).map fun l => String.mk (dropCR l)).filter
    fun t => t ≠ "")

/-- A client that always fails the PutLogEvents call. -/
def clientAlwaysErr : Nat → PutResult := fun _ => PutResult.err

/-- Claim C2, evaluated at the failing input: with BufferLines = 1 and a
client whose PutLogEvents fails, the arrival of the line "a" triggers a
flush that does send the error to the error channel, but the worker then
dereferences the nil response to read NextSequenceToken and panics, and no
later event can flush the batch again: the worker does not continue and
the buffered data is not available for a later flush. -/
theorem C2_flush_failure_crashes :
    (cwStep 1 clientAlwaysErr (cwInit none) (CWEvent.line "a")).errs = 1 ∧
    (cwStep 1 clientAlwaysErr (cwInit none) (CWEvent.line "a")).crashed = true ∧
    (cwRun 1 clientAlwaysErr [CWEvent.line "a", CWEvent.tick, CWEvent.tick]
        (cwInit none)).calls.length = 1 := by
  refine ⟨rfl, rfl, rfl⟩

theorem cwRun_append (K : Nat) (client : Nat → PutResult)
    (tr1 tr2 : List CWEvent) (st : CWWorkerState) :
    cwRun K client (tr1 ++ tr2) st = cwRun K client tr2 (cwRun K client tr1 st) :=
  List.foldl_append (cwStep K client) st tr1 tr2

/-- A line event that leaves the batch strictly below the BufferLines
bound only accumulates: no flush call is made. -/
theorem cwStep_line_no_flush (K : Nat) (client : Nat → PutResult)
    (st : CWWorkerState) (msg : String)
    (hcr : st.crashed = false) (hdn : st.done = false)
    (hlt : ¬ K ≤ st.events.length + 1) :
    cwStep K client st (CWEvent.line msg)
      = { st with events := st.events ++ [msg] } := by
  simp [cwStep, hcr, hdn, hlt]

/-- A line event that fills the batch up to the BufferLines bound issues
exactly one PutLogEvents call carrying the whole batch in order. -/
theorem cwStep_line_flush (K : Nat) (client : Nat → PutResult)
    (st : CWWorkerState) (msg : String)
    (hcr : st.crashed = false) (hdn : st.done = false)
    (hge : K ≤ st.events.length + 1) :
    (cwStep K client st (CWEvent.line msg)).calls
      = st.calls ++ [⟨st.seqToken, st.events ++ [msg]⟩] := by
  cases hcl : client st.calls.length with
  | ok next => simp [cwStep, putLogEventsLoop, hcr, hdn, hge, hcl]
  | err => simp [cwStep, putLogEventsLoop, hcr, hdn, hge, hcl]

/-- While the batch stays strictly below the BufferLines bound, line
events only accumulate: no flush call is made and the batch grows in input
order. -/
theorem cwRun_lines_small (K : Nat) (client : Nat → PutResult)
    (msgs : List String) (st : CWWorkerState)
    (hcr : st.crashed = false) (hdn : st.done = false)
    (h : st.events.length + msgs.length < K) :
    cwRun K client (msgs.map CWEvent.line) st
      = { st with events := st.events ++ msgs } := by
  induction msgs generalizing st with
  | nil =>
      simp [cwRun]
  | cons m rest ih =>
      have hlt : ¬ K ≤ st.events.length + 1 := by
        simp only [List.length_cons] at h
        omega
      have hstep := cwStep_line_no_flush K client st m hcr hdn hlt
      have hrec := ih { st with events := st.events ++ [m] }
        (by simp [hcr]) (by simp [hdn])
        (by simp only [List.length_append, List.length_cons, List.length_nil]
            simp only [List.length_cons] at h
            omega)
      calc cwRun K client ((m :: rest).map CWEvent.line) st
          = cwRun K client (rest.map CWEvent.line)
              (cwStep K client st (CWEvent.line m)) := rfl
        _ = { st with events := (st.events ++ [m]) ++ rest } := by
              rw [hstep, hrec]
        _ = { st with events := st.events ++ (m :: rest) } := by
              rw [List.append_assoc]
              rfl

/-- Claim C5: with BufferLines = K and the flush timer not firing, an
input scanning to exactly K non-empty lines causes exactly one flush call
carrying exactly those K events in input order, and an input scanning to
only K - 1 lines causes zero flush calls. -/
theorem C5_batch_boundary (K : Nat) (tok : Option String)
    (client : Nat → PutResult) (inputK inputKm1 : String)
    (hK : 0 < K)
    (hlenK : (scanTexts inputK).length = K)
    (hlenKm1 : (scanTexts inputKm1).length = K - 1) :
    (cwRun K client ((scanTexts inputK).map CWEvent.line) (cwInit tok)).calls
      = [⟨tok, scanTexts inputK⟩] ∧
    (cwRun K client ((scanTexts inputKm1).map CWEvent.line) (cwInit tok)).calls
      = [] := by
  constructor
  · set msgs := scanTexts inputK with hmsgs
    have hne : msgs ≠ [] := by
      intro hcon
      rw [hcon] at hlenK
      simp at hlenK
      omega
    have hdecomp := List.dropLast_concat_getLast hne
    have hfront : msgs.dropLast.length = K - 1 := by
      rw [List.length_dropLast, hlenK]
    have hsmall : (cwInit tok).events.length + msgs.dropLast.length < K := by
      show 0 + msgs.dropLast.length < K
      rw [hfront]
      omega
    have hrun1 : cwRun K client (msgs.dropLast.map CWEvent.line) (cwInit tok)
        = { cwInit tok with events := msgs.dropLast } :=
      cwRun_lines_small K client msgs.dropLast (cwInit tok) rfl rfl hsmall
    have hsplit : msgs.map CWEvent.line
        = msgs.dropLast.map CWEvent.line ++ [CWEvent.line (msgs.getLast hne)] := by
      conv_lhs => rw [← hdecomp]
      simp
    have hge : K ≤ ({ cwInit tok with events := msgs.dropLast } :
        CWWorkerState).events.length + 1 := by
      show K ≤ msgs.dropLast.length + 1
      rw [hfront]
      omega
    have hone := cwStep_line_flush K client
      { cwInit tok with events := msgs.dropLast } (msgs.getLast hne)
      rfl rfl hge
    rw [hsplit, cwRun_append, hrun1]
    show (cwStep K client { cwInit tok with events := msgs.dropLast }
        (CWEvent.line (msgs.getLast hne))).calls = [⟨tok, msgs⟩]
    rw [hone, hdecomp]
    rfl
  · have := cwRun_lines_small K client (scanTexts inputKm1) (cwInit tok) rfl rfl
      (by show 0 + (scanTexts inputKm1).length < K
          rw [hlenKm1]
          omega)
    rw [this]
    rfl

theorem C5_batch_boundary_witness :
    0 < 2 ∧ (scanTexts "a\nb\n").length = 2 ∧ (scanTexts "a\n").length = 2 - 1 ∧
    (cwRun 2 clientAlwaysErr ((scanTexts "a\nb\n").map CWEvent.line)
        (cwInit (some "t"))).calls = [⟨some "t", scanTexts "a\nb\n"⟩] ∧
    (cwRun 2 clientAlwaysErr ((scanTexts "a\n").map CWEvent.line)
        (cwInit (some "t"))).calls = [] := by
  refine ⟨by decide, by decide, by decide, ?_⟩
  exact C5_batch_boundary 2 (some "t") clientAlwaysErr "a\nb\n" "a\n"
    (by decide) (by decide) (by decide)

/-- Claim C6: once cancellation is observed the worker exits its loop
without flushing, and the drain then appends every line still queued to
the batch and issues exactly one final flush carrying all of them, in
order, whenever there is anything to send; when batch and queue are both
empty no final flush is issued.  So no buffered but unflushed line is
discarded when the final flush succeeds. -/
theorem C6_drain_on_close (K : Nat) (client : Nat → PutResult)
    (st : CWWorkerState) (pending : List String)
    (hcr : st.crashed = false) :
    (cwStep K client st CWEvent.cancel).calls = st.calls ∧
    (st.events ++ pending ≠ [] →
      (cwDrain client st pending).calls
        = st.calls ++ [⟨st.seqToken, st.events ++ pending⟩]) ∧
    (st.events ++ pending = [] → (cwDrain client st pending).calls = st.calls) := by
  refine ⟨?_, ?_, ?_⟩
  · unfold cwStep
    split
    · rfl
    · rfl
  · intro hne
    have hlen : 0 < (st.events ++ pending).length := List.length_pos.mpr hne
    have hor : 0 < st.events.length ∨ 0 < pending.length := by
      simp only [List.length_append] at hlen
      omega
    cases hcl : client st.calls.length with
    | ok next => simp [cwDrain, hcr, hor, hcl]
    | err => simp [cwDrain, hcr, hor, hcl]
  · intro hemp
    have h1 : st.events = [] := by
      rcases List.append_eq_nil.mp hemp with ⟨ha, -⟩
      exact ha
    have h2 : pending = [] := by
      rcases List.append_eq_nil.mp hemp with ⟨-, hb⟩
      exact hb
    simp [cwDrain, hcr, h1, h2]

theorem C6_drain_on_close_witness :
    (⟨["a"], some "t", [], 0, false, true⟩ : CWWorkerState).events ++ ["b"] ≠ [] ∧
    (cwDrain clientAlwaysErr ⟨["a"], some "t", [], 0, false, true⟩ ["b"]).calls
      = [⟨some "t", ["a", "b"]⟩] := by
  refine ⟨by decide, ?_⟩
  exact (C6_drain_on_close 50 clientAlwaysErr
    ⟨["a"], some "t", [], 0, false, true⟩ ["b"] rfl).2.1 (by decide)

/-- The token-threading invariant: in the call log, every call after a
successful one presents exactly the NextSequenceToken returned by its
predecessor. -/
def callsThreaded (client : Nat → PutResult) (calls : List PutCall) : Prop :=
  ∀ i t c, client i = PutResult.ok t → calls[i + 1]? = some c → c.seqToken = t

/-- Worker-state invariant for token threading: the call log is threaded,
and while the worker is alive the current token is the NextSequenceToken
of the last call whenever that call succeeded. -/
def tokenInv (client : Nat → PutResult) (st : CWWorkerState) : Prop :=
  callsThreaded client st.calls ∧
  (st.crashed = false → st.calls ≠ [] →
    ∀ t, client (st.calls.length - 1) = PutResult.ok t → st.seqToken = t)

theorem callsThreaded_concat (client : Nat → PutResult) (calls : List PutCall)
    (tok : Option String) (evs : List String)
    (h1 : callsThreaded client calls)
    (h2 : calls ≠ [] → ∀ t, client (calls.length - 1) = PutResult.ok t → tok = t) :
    callsThreaded client (calls ++ [⟨tok, evs⟩]) := by
  intro i t c hcl hget
  by_cases hi : i + 1 < calls.length
  · rw [List.getElem?_append_left hi] at hget
    exact h1 i t c hcl hget
  · by_cases heq : i + 1 = calls.length
    · rw [heq, List.getElem?_concat_length] at hget
      have hne : calls ≠ [] := by
        intro hcon
        rw [hcon] at heq
        simp at heq
      have hlast : client (calls.length - 1) = PutResult.ok t := by
        rw [← heq]
        simpa using hcl
      have := h2 hne t hlast
      cases hget
      exact this
    · have hout : (calls ++ [(⟨tok, evs⟩ : PutCall)]).length ≤ i + 1 := by
        simp only [List.length_append, List.length_cons, List.length_nil]
        omega
      rw [List.getElem?_eq_none hout] at hget
      cases hget

theorem tokenInv_flush (client : Nat → PutResult) (st : CWWorkerState)
    (hcr : st.crashed = false) (hinv : tokenInv client st) :
    tokenInv client (putLogEventsLoop client st) := by
  obtain ⟨h1, h2⟩ := hinv
  unfold putLogEventsLoop
  cases hcl : client st.calls.length with
  | ok next =>
      refine ⟨callsThreaded_concat client st.calls st.seqToken st.events h1
        (h2 hcr), ?_⟩
      intro _ _ t hlast
      simp only [List.length_append, List.length_cons, List.length_nil,
        Nat.add_sub_cancel] at hlast
      rw [hcl] at hlast
      cases hlast
      rfl
  | err =>
      refine ⟨callsThreaded_concat client st.calls st.seqToken st.events h1
        (h2 hcr), ?_⟩
      intro hcon
      simp at hcon

theorem tokenInv_step (K : Nat) (client : Nat → PutResult)
    (st : CWWorkerState) (ev : CWEvent) (hinv : tokenInv client st) :
    tokenInv client (cwStep K client st ev) := by
  unfold cwStep
  split
  · exact hinv
  · rename_i hguard
    have hcr : st.crashed = false := by
      cases hcrb : st.crashed
      · rfl
      · exact absurd (Or.inl hcrb) hguard
    match ev with
    | CWEvent.line msg =>
        simp only []
        split
        · exact tokenInv_flush client { st with events := st.events ++ [msg] }
            hcr hinv
        · exact hinv
    | CWEvent.lineClosed =>
        simp only []
        split
        · exact tokenInv_flush client st hcr hinv
        · exact hinv
    | CWEvent.tick =>
        simp only []
        split
        · exact tokenInv_flush client st hcr hinv
        · exact hinv
    | CWEvent.cancel => exact hinv

theorem tokenInv_run (K : Nat) (client : Nat → PutResult)
    (tr : List CWEvent) (st : CWWorkerState) (hinv : tokenInv client st) :
    tokenInv client (cwRun K client tr st) := by
  induction tr generalizing st with
  | nil => exact hinv
  | cons ev rest ih => exact ih _ (tokenInv_step K client st ev hinv)

theorem callsThreaded_drain (client : Nat → PutResult) (st : CWWorkerState)
    (pending : List String) (hinv : tokenInv client st) :
    callsThreaded client (cwDrain client st pending).calls := by
  obtain ⟨h1, h2⟩ := hinv
  unfold cwDrain
  split
  · exact h1
  · rename_i hcr0
    have hcr : st.crashed = false := by
      cases hcrb : st.crashed
      · rfl
      · exact absurd hcrb hcr0
    simp only []
    split
    · cases hcl : client st.calls.length with
      | ok next =>
          exact callsThreaded_concat client st.calls st.seqToken
            (st.events ++ pending) h1 (h2 hcr)
      | err =>
          exact callsThreaded_concat client st.calls st.seqToken
            (st.events ++ pending) h1 (h2 hcr)
    · exact h1

theorem tokenInv_init (client : Nat → PutResult) (tok : Option String) :
    tokenInv client (cwInit tok) := by
  constructor
  · intro i t c _ hget
    simp [cwInit] at hget
  · intro _ hcon
    exact absurd rfl hcon

/-- Claim C4: for any two consecutive flush calls of the same log
destination where the first succeeded, the sequence token presented by the
second PutLogEvents call is exactly the NextSequenceToken value returned
in the first call response, never an earlier or cached token.  Stated over
a full worker run (any event trace, then the close drain). -/
theorem C4_token_threading (K : Nat) (tok : Option String)
    (client : Nat → PutResult) (tr : List CWEvent) (pending : List String)
    (i : Nat) (t : Option String) (c : PutCall)
    (hcl : client i = PutResult.ok t)
    (hget : (cwRunClose K client tr pending (cwInit tok)).calls[i + 1]? = some c) :
    c.seqToken = t := by
  have hinv := tokenInv_run K client tr (cwInit tok) (tokenInv_init client tok)
  exact callsThreaded_drain client (cwRun K client tr (cwInit tok)) pending hinv
    i t c hcl hget

/-- A client returning a fresh token for each call, for the C4 witness. -/
def clientTokens : Nat → PutResult := fun n => PutResult.ok (some (toString n))

theorem C4_token_threading_witness :
    clientTokens 0 = PutResult.ok (some "0") ∧
    (cwRunClose 1 clientTokens [CWEvent.line "a", CWEvent.line "b"] []
        (cwInit none)).calls[1]? = some ⟨some "0", ["b"]⟩ ∧
    (⟨some "0", ["b"]⟩ : PutCall).seqToken = some "0" := by
  refine ⟨by decide, by decide, ?_⟩
  exact C4_token_threading 1 none clientTokens [CWEvent.line "a", CWEvent.line "b"]
    [] 0 (some "0") ⟨some "0", ["b"]⟩ (by decide) (by decide)

/-! ## Stream preparation (prepareCloudwatchLogs)

prepareCloudwatchLogs describes the log streams of the group, filtered by
the stream name prefix.  The remote service is modelled by the three call
results it can return.  The Go function dereferences the DescribeLogStreams
output pointer after the error branch; when that branch did not return,
the pointer is nil and the dereference panics — modelled by an explicit
nilDeref outcome. -/

/-- An error returned by a CloudWatch Logs call: a smithy API error with
its code and message, or any other error (for which errors.As fails). -/
inductive CWErr where
  | api (code msg : String)
  | other
  deriving Repr, DecidableEq

/-- One log stream as reported by DescribeLogStreams: its name and its
upload sequence token (absent for an empty stream). -/
structure LogStreamM where
  logStreamName : String
  uploadSequenceToken : Option String
  deriving Repr, DecidableEq

/-- The remote results prepareCloudwatchLogs can observe: the outcome of
DescribeLogStreams, of CreateLogGroup and of CreateLogStream. -/
structure CWPrepEnv where
  describeResult : Except CWErr (List LogStreamM)
  createGroupResult : Except CWErr Unit
  createStreamResult : Except CWErr Unit

/-- Outcome of prepareCloudwatchLogs: success with the recovered sequence
token (absent for a new or empty stream), an error, or the nil-pointer
dereference of the describe output. -/
inductive PrepResult where
  | ok (token : Option String)
  | err (e : CWErr)
  | nilDeref
  deriving Repr, DecidableEq

/-- Structural prefix test on character lists. -/
def charsHasPrefix : List Char → List Char → Bool
  | _, [] => true
  | [], _ :: _ => false
  | c :: cs, d :: ds => c = d && charsHasPrefix cs ds

/-- Structural substring test on character lists. -/
def charsContains : List Char → List Char → Bool
  | [], needle => charsHasPrefix [] needle
  | c :: rest, needle => charsHasPrefix (c :: rest) needle || charsContains rest needle

/-- strings.Contains. -/
def strContains (hay needle : String) : Bool :=
  charsContains hay.toList needle.toList

/-- prepareCloudwatchLogs: describe the streams of the group; on an error
that is a ResourceNotFoundException mentioning a missing log group, with
group auto-creation enabled, create the group (any other error is
returned).  Control then falls through to read LogStreams from the
describe output: when the describe call failed that output pointer is nil
and the access panics (nilDeref).  On a successful describe, the stream
with the exact requested name yields its upload sequence token (absent
token for an empty stream); otherwise the stream is created and an absent
token returned. -/
def prepareCloudwatchLogs (env : CWPrepEnv) (logStreamName : String)
    (createLogGroup : Bool) : PrepResult :=
  match env.describeResult with
  | Except.error e =>
      match e with
      | CWErr.api code msg =>
          if code ≠ "ResourceNotFoundException" then PrepResult.err (CWErr.api code msg)
          else if ¬ strContains msg "log group does not exist" then
            PrepResult.err (CWErr.api code msg)
          else if ¬ createLogGroup then PrepResult.err (CWErr.api code msg)
          else
            match env.createGroupResult with
            | Except.error e2 => PrepResult.err e2
            | Except.ok _ => PrepResult.nilDeref
      | CWErr.other => PrepResult.nilDeref
  | Except.ok streams =>
      match streams.find? (fun s => s.logStreamName = logStreamName) with
      | some s => PrepResult.ok s.uploadSequenceToken
      | none =>
          match env.createStreamResult with
          | Except.error e => PrepResult.err e
          | Except.ok _ => PrepResult.ok none

/-- The failing environment for claim C3: the log group does not exist,
auto-creation is enabled and CreateLogGroup succeeds. -/
def envGroupMissing : CWPrepEnv :=
  { describeResult := Except.error
      (CWErr.api "ResourceNotFoundException" "The specified log group does not exist.")
    createGroupResult := Except.ok ()
    createStreamResult := Except.ok () }

/-- Claim C3, evaluated at the failing input: when the log group does not
exist and auto-creation is enabled, the code creates the group but then
dereferences the nil DescribeLogStreams output and panics, instead of
creating the missing stream and returning an absent sequence token; the
stream-exists path does return the recovered token (absent for an empty
stream). -/
theorem C3_prepare_group_autocreate :
    prepareCloudwatchLogs envGroupMissing "st" true = PrepResult.nilDeref ∧
    prepareCloudwatchLogs
      ⟨Except.ok [⟨"st", some "tok"⟩], Except.ok (), Except.ok ()⟩ "st" true
      = PrepResult.ok (some "tok") ∧
    prepareCloudwatchLogs
      ⟨Except.ok [⟨"st", none⟩], Except.ok (), Except.ok ()⟩ "st" true
      = PrepResult.ok none := by
  refine ⟨by decide, by decide, by decide⟩

/-! ## S3 object writer construction (newS3Writer)

The existence probe and the overwrite policy decide whether construction
succeeds, before the upload worker is started (so before any write).  The
key derivation from the URL prefix (lines 208-215 of the source) is not at
stake in the claims, so newS3Writer is modelled over the derived bucket
and key. -/

/-- Result of the HeadObject probe: the object exists (call succeeded), a
smithy API error with its code, or a non-API error. -/
inductive HeadObjectResult where
  | found
  | apiErr (code : String)
  | otherErr
  deriving Repr, DecidableEq

/-- s3ObjectAlreadyExists: HeadObject on the key; a NotFound API error
means the object does not exist; any other error is propagated. -/
def s3ObjectAlreadyExists : HeadObjectResult → Except HeadObjectResult Bool
  | HeadObjectResult.found => Except.ok true
  | HeadObjectResult.apiErr code =>
      if code = "NotFound" then Except.ok false
      else Except.error (HeadObjectResult.apiErr code)
  | HeadObjectResult.otherErr => Except.error HeadObjectResult.otherErr

/-- Construction errors of newS3Writer: the probe error propagated, or the
conflict error naming the full locator. -/
inductive S3NewErr where
  | probe (r : HeadObjectResult)
  | conflict (msg : String)
  deriving Repr, DecidableEq

/-- A constructed S3 writer: its destination bucket and key. -/
structure S3WriterM where
  bucket : String
  key : String
  deriving Repr, DecidableEq

/-- newS3Writer, after key derivation: probe for the object; a probe error
fails construction unless overwrite is allowed; an existing object with
overwrite disallowed fails construction with the conflict error naming
s3://bucket/key; otherwise the writer is constructed (and only then would
the background upload start). -/
def newS3Writer (head : HeadObjectResult) (allowOverwrite : Bool)
    (bucket key : String) : Except S3NewErr S3WriterM :=
  match s3ObjectAlreadyExists head with
  | Except.error e =>
      if ¬ allowOverwrite then Except.error (S3NewErr.probe e)
      else Except.ok ⟨bucket, key⟩
  | Except.ok ex =>
      if ex ∧ ¬ allowOverwrite then
        Except.error (S3NewErr.conflict
          s!"s3://{bucket}/{key} is already exists, not allow overwrite")
      else Except.ok ⟨bucket, key⟩

/-- Claim C9: with the object already existing, construction with
overwrite disabled fails with the conflict error naming the full locator
(no writer is constructed, hence no write is attempted), and with
overwrite enabled it succeeds; an existence-probe error other than
NotFound also fails construction when overwrite is not allowed. -/
theorem C9_overwrite_conflict (bucket key code : String)
    (hcode : code ≠ "NotFound") :
    newS3Writer HeadObjectResult.found false bucket key
      = Except.error (S3NewErr.conflict
          s!"s3://{bucket}/{key} is already exists, not allow overwrite") ∧
    newS3Writer HeadObjectResult.found true bucket key
      = Except.ok ⟨bucket, key⟩ ∧
    newS3Writer (HeadObjectResult.apiErr code) false bucket key
      = Except.error (S3NewErr.probe (HeadObjectResult.apiErr code)) ∧
    newS3Writer HeadObjectResult.otherErr false bucket key
      = Except.error (S3NewErr.probe HeadObjectResult.otherErr) := by
  refine ⟨rfl, rfl, ?_, rfl⟩
  simp [newS3Writer, s3ObjectAlreadyExists, hcode]

theorem C9_overwrite_conflict_witness :
    ("AccessDenied" : String) ≠ "NotFound" ∧
    newS3Writer HeadObjectResult.found false "b" "k"
      = Except.error (S3NewErr.conflict
          "s3://b/k is already exists, not allow overwrite") ∧
    newS3Writer HeadObjectResult.found true "b" "k" = Except.ok ⟨"b", "k"⟩ ∧
    newS3Writer (HeadObjectResult.apiErr "AccessDenied") false "b" "k"
      = Except.error (S3NewErr.probe (HeadObjectResult.apiErr "AccessDenied")) ∧
    newS3Writer HeadObjectResult.otherErr false "b" "k"
      = Except.error (S3NewErr.probe HeadObjectResult.otherErr) := by
  refine ⟨by decide, ?_⟩
  have h := C9_overwrite_conflict "b" "k" "AccessDenied" (by decide)
  exact ⟨h.1, h.2.1, h.2.2.1, h.2.2.2⟩

/-! ## Destination selection (Config.EnableS3, Config.EnableCloudwatchLogs,
AWSTee.TeeReader)

TeeReader builds the list of destination write-closers from the
configuration and fails with "no destination" when the list stays empty.
The two writer constructors are modelled by the outcome each would
return. -/

/-- S3 section of the configuration (the fields TeeReader consults). -/
structure S3ConfigM where
  urlPrefix : String
  allowOverwrite : Bool
  deriving Repr, DecidableEq

/-- CloudWatch Logs section of the configuration (the fields TeeReader
consults). -/
structure CloudwatchLogsConfigM where
  logGroup : String
  deriving Repr, DecidableEq

/-- The configuration: both destination sections are optional pointers. -/
structure ConfigM where
  s3 : Option S3ConfigM
  cloudwatch : Option CloudwatchLogsConfigM
  deriving Repr, DecidableEq

/-- Config.EnableS3: the S3 section is present and its URL prefix is
non-empty. -/
def ConfigM.enableS3 (cfg : ConfigM) : Bool :=
  match cfg.s3 with
  | none => false
  | some s => s.urlPrefix != ""

/-- Config.EnableCloudwatchLogs: the CloudWatch section is present and its
log group is non-empty. -/
def ConfigM.enableCloudwatchLogs (cfg : ConfigM) : Bool :=
  match cfg.cloudwatch with
  | none => false
  | some c => c.logGroup != ""

/-- Errors TeeReader can return: a wrapped S3 writer construction error, a
wrapped CloudWatch Logs writer construction error, or "no destination". -/
inductive TeeErr where
  | s3Writer (e : S3NewErr)
  | cloudwatchWriter (e : CWErr)
  | noDestination
  deriving Repr, DecidableEq

/-- AWSTee.TeeReader: when S3 is enabled its writer is constructed (a
failure aborts); when CloudWatch Logs is enabled its writer is constructed
(a failure aborts); if no write-closer was collected the call fails with
"no destination", otherwise the reader is returned with that many
write-closers.  The two construction outcomes are supplied by the
environment. -/
def teeReaderCtor (cfg : ConfigM) (s3Res : Except S3NewErr S3WriterM)
    (cwRes : Except CWErr Unit) : Except TeeErr Nat :=
  match
    (if cfg.enableS3 then
      match s3Res with
      | Except.error e => Except.error (TeeErr.s3Writer e)
      | Except.ok _ => Except.ok 1
    else Except.ok 0 : Except TeeErr Nat) with
  | Except.error e => Except.error e
  | Except.ok n =>
      match
        (if cfg.enableCloudwatchLogs then
          match cwRes with
          | Except.error e => Except.error (TeeErr.cloudwatchWriter e)
          | Except.ok _ => Except.ok (n + 1)
        else Except.ok n : Except TeeErr Nat) with
      | Except.error e => Except.error e
      | Except.ok m =>
          if m = 0 then Except.error TeeErr.noDestination else Except.ok m

/-- Claim C10: when neither destination is enabled (pointer absent or its
locator string empty), TeeReader returns the "no destination" error rather
than a reader with zero destinations; with at least one destination
enabled and every enabled writer constructed successfully, it returns a
reader (with a positive number of destinations). -/
theorem C10_no_destination (cfg : ConfigM) (s3Res : Except S3NewErr S3WriterM)
    (cwRes : Except CWErr Unit) :
    (cfg.enableS3 = false → cfg.enableCloudwatchLogs = false →
      teeReaderCtor cfg s3Res cwRes = Except.error TeeErr.noDestination) ∧
    ((cfg.enableS3 = true ∨ cfg.enableCloudwatchLogs = true) →
      (cfg.enableS3 = true → ∃ w, s3Res = Except.ok w) →
      (cfg.enableCloudwatchLogs = true → cwRes = Except.ok ()) →
      ∃ m, teeReaderCtor cfg s3Res cwRes = Except.ok m ∧ 0 < m) := by
  constructor
  · intro h1 h2
    simp [teeReaderCtor, h1, h2]
  · intro hen hs3 hcw
    cases hes : cfg.enableS3 with
    | true =>
        obtain ⟨w, hw⟩ := hs3 hes
        cases hec : cfg.enableCloudwatchLogs with
        | true =>
            have hcw1 := hcw hec
            refine ⟨2, ?_, by omega⟩
            simp [teeReaderCtor, hes, hec, hw, hcw1]
        | false =>
            refine ⟨1, ?_, by omega⟩
            simp [teeReaderCtor, hes, hec, hw]
    | false =>
        have hec : cfg.enableCloudwatchLogs = true := by
          rcases hen with h | h
          · rw [hes] at h
            cases h
          · exact h
        have hcw1 := hcw hec
        refine ⟨1, ?_, by omega⟩
        simp [teeReaderCtor, hes, hec, hcw1]

/-- A configuration with no destination section at all. -/
def cfgEmpty : ConfigM := ⟨none, none⟩

theorem C10_no_destination_witness :
    cfgEmpty.enableS3 = false ∧ cfgEmpty.enableCloudwatchLogs = false ∧
    teeReaderCtor cfgEmpty (Except.ok ⟨"b", "k"⟩) (Except.ok ())
      = Except.error TeeErr.noDestination := by
  refine ⟨rfl, rfl, ?_⟩
  exact (C10_no_destination cfgEmpty (Except.ok ⟨"b", "k"⟩) (Except.ok ())).1 rfl rfl

end Awstee
